import Mathlib

/-!
Verification of the client-side overlay engine (static/js/feed_overlays.js).

Numeric values are modelled as rationals. JavaScript produces a non-finite
number (Infinity or NaN) here only by dividing by zero, so each division by a
source dimension is guarded: a zero divisor models the non-finite result that
the Number.isFinite check in the source rejects.
-/

namespace FeedOverlays

/-- The normalized-vs-raw threshold 1.01 used by scaleBox. -/
def normBound : ℚ := 101 / 100

/-- normToDisplay from the source: scale a normalized point by the displayed
image dimensions. -/
def normToDisplay (x y imgW imgH : ℚ) : ℚ × ℚ := (x * imgW, y * imgH)

/-- pixToDisplay from the source: scale a raw source-pixel point by
displayed dimension over source dimension, per axis. -/
def pixToDisplay (x y srcW srcH imgW imgH : ℚ) : ℚ × ℚ :=
  (x * imgW / srcW, y * imgH / srcH)

/-- scaleBox from the source. A box shorter than 4 entries yields null.
If every one of the first four components is at most 1.01 the box is scaled
as normalized, otherwise as raw source pixels. A result with a non-finite
component (modelled by a zero source dimension on the raw path) or a
non-positive width or height yields null. -/
def scaleBox (box : List ℚ) (srcW srcH imgW imgH : ℚ) : Option (ℚ × ℚ × ℚ × ℚ) :=
  match box with
  | x :: y :: w :: h :: _ =>
    if x ≤ normBound ∧ y ≤ normBound ∧ w ≤ normBound ∧ h ≤ normBound then
      let bx := x * imgW
      let b2 := y * imgH
      let bw := w * imgW
      let bh := h * imgH
      if bw ≤ 0 ∨ bh ≤ 0 then none else some (bx, b2, bw, bh)
    else
      if srcW = 0 ∨ srcH = 0 then none
      else
        let bx := x * imgW / srcW
        let b2 := y * imgH / srcH
        let bw := w * imgW / srcW
        let bh := h * imgH / srcH
        if bw ≤ 0 ∨ bh ≤ 0 then none else some (bx, b2, bw, bh)
  | _ => none

/-- A counting line as delivered in a message: the four entries
[x1,y1,x2,y2] of the source array, in normalized source coordinates. -/
structure Line where
  x1 : ℚ
  y1 : ℚ
  x2 : ℚ
  y2 : ℚ
deriving DecidableEq

/-- A track from a detection message. The trail is absent when the message
carried none (Array.isArray fails); conf is absent when undefined. -/
structure Track where
  id : String
  label : Option String
  conf : Option ℚ
  box : List ℚ
  trail : Option (List (ℚ × ℚ))
  face : Option (List ℚ)
deriving DecidableEq

/-- A PPE item from a detection message. -/
structure Ppe where
  type : String
  box : List ℚ
  score : Option ℚ
deriving DecidableEq

/-- The settings object fields the renderer reads. -/
structure Settings where
  show_lines : Bool
  show_track_lines : Bool
  show_counts : Bool
  show_face_boxes : Bool
  show_ids : Bool
  enable_live_charts : Bool
  thickness : ℚ
deriving DecidableEq

/-- The overlayState.flags record. -/
structure OverlayFlags where
  show_lines : Bool
  show_track_lines : Bool
  show_counts : Bool
  show_ids : Bool
  show_face_boxes : Bool
  show_person : Bool
  show_vehicle : Bool
  show_faces : Bool
deriving DecidableEq

/-- The crossing-color computation of renderOverlay (lines 220-237 of the
source): evaluated on the last two trail points against the first configured
line; a vertical line (equal x-coordinates, checked first) compares x
positions against the line x scaled to source pixels, a horizontal line
compares y positions; a strict sign change picks green when moving toward
increasing coordinate and red otherwise; any other case yields no color. -/
def crossColor (trail : List (ℚ × ℚ)) (lines : List Line) (srcW srcH : ℚ) :
    Option String :=
  match lines, trail.reverse with
  | ln :: _, (px2, py2) :: (px1, py1) :: _ =>
    if ln.x1 = ln.x2 then
      let lx := ln.x1 * srcW
      if (px1 - lx) * (px2 - lx) < 0 then
        some (if px1 < px2 then "green" else "red")
      else none
    else if ln.y1 = ln.y2 then
      let ly := ln.y1 * srcH
      if (py1 - ly) * (py2 - ly) < 0 then
        some (if py1 < py2 then "green" else "red")
      else none
    else none
  | _, _ => none

/-- The per-class category filter of renderOverlay (lines 210-215 of the
source). -/
def trackVisible (fl : OverlayFlags) (t : Track) : Bool :=
  if t.label = some "person" then fl.show_person
  else if t.label = some "vehicle" then fl.show_vehicle
  else if t.label = some "face" then fl.show_faces
  else true

/-- A drawing-surface operation emitted by the render pass. -/
inductive DrawCall where
  | strokeRect (color : String) (x y w h : ℚ)
  | strokePath (color : String) (segs : List ((ℚ × ℚ) × (ℚ × ℚ)))
  | trackText (id : String) (label : Option String) (conf : ℚ) (x y : ℚ)
  | scoreText (color : String) (score : ℚ) (x y : ℚ)
deriving DecidableEq

/-- The display-space segments of a trail polyline: consecutive trail points
mapped through pixToDisplay and offset, as drawn by the track-lines loop. -/
def trailSegs (trail : List (ℚ × ℚ)) (srcW srcH imgW imgH offX offY : ℚ) :
    List ((ℚ × ℚ) × (ℚ × ℚ)) :=
  (trail.zip trail.tail).map (fun pq =>
    let p := pixToDisplay pq.1.1 pq.1.2 srcW srcH imgW imgH
    let q := pixToDisplay pq.2.1 pq.2.2 srcW srcH imgW imgH
    ((offX + p.1, offY + p.2), (offX + q.1, offY + q.2)))

/-- The draw calls one track contributes in the renderOverlay track loop
(lines 216-266 of the source): nothing when its box scales to null;
otherwise its box rectangle in the crossing color (yellow fallback), the
face rectangle when enabled and valid, the trail polyline when enabled
(red fallback color), and the id text when enabled. -/
def renderTrack (s : Settings) (lines : List Line)
    (srcW srcH imgW imgH offX offY : ℚ) (t : Track) : List DrawCall :=
  match scaleBox t.box srcW srcH imgW imgH with
  | none => []
  | some (bx, b2, bw, bh) =>
    let cc := match t.trail with
      | some tr => crossColor tr lines srcW srcH
      | none => none
    [DrawCall.strokeRect (cc.getD "yellow") (offX + bx) (offY + b2) bw bh]
    ++ (if s.show_face_boxes then
          match t.face with
          | some fb =>
            match scaleBox fb srcW srcH imgW imgH with
            | some (fx, fy, fw, fh) =>
              [DrawCall.strokeRect "orange" (offX + fx) (offY + fy) fw fh]
            | none => []
          | none => []
        else [])
    ++ (if s.show_track_lines then
          match t.trail with
          | some tr =>
            [DrawCall.strokePath (cc.getD "red")
              (trailSegs tr srcW srcH imgW imgH offX offY)]
          | none => []
        else [])
    ++ (if s.show_ids then
          [DrawCall.trackText t.id t.label (t.conf.getD 0) (offX + bx) (offY + b2 - 4)]
        else [])

/-- The full track loop: per-class filter, then per-track draw calls. -/
def renderTracks (s : Settings) (fl : OverlayFlags) (lines : List Line)
    (srcW srcH imgW imgH offX offY : ℚ) (ts : List Track) : List DrawCall :=
  (ts.filter (trackVisible fl)).flatMap (renderTrack s lines srcW srcH imgW imgH offX offY)

/-- A source size record {w, h}. -/
structure Size where
  w : ℚ
  h : ℚ
deriving DecidableEq

/-- A counts record; absent fields model missing object properties and the
empty object is all-absent. -/
structure Counts where
  entered : Option Nat
  exited : Option Nat
  inside : Option Nat
deriving DecidableEq

/-- An inbound detection message: every field optional, as on the wire. -/
structure Msg where
  src : Option Size
  tracks : Option (List Track)
  lines : Option (List Line)
  ppe : Option (List Ppe)
  counts : Option Counts
  lineOrientation : Option String
  lineRatio : Option ℚ
deriving DecidableEq

/-- The mutable per-camera entry state the message handler writes, plus the
presence of the drawing context and canvas. -/
structure Info where
  src : Option Size
  tracks : List Track
  lines : List Line
  ppe : List Ppe
  counts : Counts
  lineOrientation : Option String
  lineRatio : Option ℚ
  ctx : Bool
  canvas : Bool
deriving DecidableEq

/-- The state update the process callback performs on the entry (lines
373-379 of the source): src only when present, the list fields defaulted to
empty, counts defaulted to the empty object, the line fields copied. -/
def applyMsg (msg : Msg) (info : Info) : Info :=
  { info with
    src := match msg.src with
           | some sz => some sz
           | none => info.src
    tracks := msg.tracks.getD []
    lines := msg.lines.getD []
    ppe := msg.ppe.getD []
    counts := msg.counts.getD ⟨none, none, none⟩
    lineOrientation := msg.lineOrientation
    lineRatio := msg.lineRatio }

/-- The render-scheduler state of connectDetections: the message queue, the
pending animation-frame flag, a counter of callbacks scheduled in the
current refresh tick, and the entry state. -/
structure SchedState where
  queue : List Msg
  rafPending : Bool
  scheduled : Nat
  info : Info
deriving DecidableEq

/-- enqueue from the source: push the message and request one animation
frame unless one is already pending. -/
def enqueue (msg : Msg) (s : SchedState) : SchedState :=
  { s with
    queue := s.queue ++ [msg]
    rafPending := true
    scheduled := if s.rafPending then s.scheduled else s.scheduled + 1 }

/-- A burst of inbound messages enqueued in order. -/
def enqueueAll (msgs : List Msg) (s : SchedState) : SchedState :=
  msgs.foldl (fun a m => enqueue m a) s

/-- The process callback: clear the pending-frame handle, return untouched
on an empty queue, otherwise apply only the last queued message, clear the
queue, and paint exactly when both the context and the canvas exist. The
returned flag records whether a paint happened. -/
def process (s : SchedState) : SchedState × Bool :=
  let s0 : SchedState := { s with rafPending := false }
  match s0.queue.getLast? with
  | none => (s0, false)
  | some msg =>
    let info := applyMsg msg s0.info
    ({ s0 with queue := [], info := info }, info.ctx && info.canvas)

/-- An event on a detection channel instance: a pending reconnect timer
firing (running connect), the socket opening, the socket closing with a
code, or the caller invoking the returned close function. -/
inductive WsEvent where
  | timerFire
  | wsOpen
  | wsClose (code : Nat)
  | callerClose
deriving DecidableEq

/-- The observable state of one connectDetections instance: the active
flag, the current backoff delay in milliseconds, how many socket
connections have been created, the delays of reconnect timers that are set
but have not fired, and the surfaced toast messages in order. -/
structure ChanState where
  active : Bool
  delay : Nat
  openConns : Nat
  pending : List Nat
  toasts : List String
deriving DecidableEq

/-- connectDetections right after its initial connect call: active, base
delay 1000, one connection created, no timer pending. -/
def chanInit : ChanState := ⟨true, 1000, 1, [], []⟩

/-- One event step of connectDetections. A firing timer runs connect and so
always creates a connection. wsOpen resets the delay to 1000. wsClose
toasts on code 1008, and only while active: toasts when the delay has
reached 10000, sets a reconnect timer for the current delay, then doubles
the delay capped at 10000. The close function only clears the active flag;
it does not remove a pending reconnect timer. -/
def chanStep (s : ChanState) (e : WsEvent) : ChanState :=
  match e with
  | .timerFire =>
    match s.pending with
    | [] => s
    | _ :: rest => { s with pending := rest, openConns := s.openConns + 1 }
  | .wsOpen => { s with delay := 1000 }
  | .wsClose code =>
    let s1 := if code = 1008 then { s with toasts := s.toasts ++ ["Auth failed"] } else s
    if s1.active then
      let s2 := if s1.delay ≥ 10000
        then { s1 with toasts := s1.toasts ++ ["Reconnect failed"] } else s1
      { s2 with pending := s2.pending ++ [s2.delay], delay := min (s2.delay * 2) 10000 }
    else s1
  | .callerClose => { s with active := false }

/-- A sequence of channel events, folded over the step function. -/
def chanRun (s : ChanState) (es : List WsEvent) : ChanState := es.foldl chanStep s

/-- The lifecycle state of one camera entry: the active flag, whether a
token is held, whether the overlay canvas and the resize listener are
attached, how many detection channels are open, and the rendered state. -/
structure Entry where
  active : Bool
  token : Bool
  hasCanvas : Bool
  resizeListener : Bool
  channels : Nat
  tracks : List Track
  lines : List Line
  ppe : List Ppe
  counts : Counts
deriving DecidableEq

/-- entry.start from the source (lines 85-145): returns unchanged while
active; otherwise resolves a token (the fetchOk flag abstracts the token
endpoint's answer) and gives up when none is obtained; with a token it
attaches the canvas and the resize listener, sets the active flag, and
opens the detection channel. -/
def entryStart (fetchOk : Bool) (e : Entry) : Entry :=
  if e.active then e
  else
    let e1 := if e.token then e else if fetchOk then { e with token := true } else e
    if e1.token then
      { e1 with
        active := true
        hasCanvas := true
        resizeListener := true
        channels := e1.channels + 1 }
    else e1

/-- entry.stop from the source (lines 147-159): returns unchanged while
inactive; otherwise closes the channel, removes the canvas, detaches the
resize listener, and clears tracks, lines, ppe and counts. -/
def entryStop (e : Entry) : Entry :=
  if e.active then
    { e with
      active := false
      channels := e.channels - 1
      hasCanvas := false
      resizeListener := false
      tracks := []
      lines := []
      ppe := []
      counts := ⟨none, none, none⟩ }
  else e

/-- The channel-count invariant: one open channel exactly while active. -/
def entryInv (e : Entry) : Prop := e.channels = if e.active then 1 else 0

/-- A JavaScript settings value as carried by the config channel. -/
inductive JVal where
  | bool (b : Bool)
  | num (q : ℚ)
  | str (v : String)
  | strs (l : List String)
deriving DecidableEq

/-- Object.assign(target, source) on flat string-keyed objects: every own
key of the source overwrites the target's entry, every other key of the
target persists. -/
def objAssign (target src : String → Option JVal) : String → Option JVal :=
  fun k => match src k with
           | some v => some v
           | none => target k

/-- An inbound message on the shared config channel. -/
structure ConfigMsg where
  type : String
  data : Option (String → Option JVal)

/-- The message handler of initSettingsSocket (source lines 439-452): on a
message of type "settings" carrying data it merges the pushed data onto the
shared settings object with Object.assign and re-renders every camera that
currently has an overlay canvas from its cached entry state; it issues no
network request. The result carries the new settings object, the cameras
re-rendered (each from its cached info), and the number of requests. -/
def onSettingsPush (msg : ConfigMsg) (settings : String → Option JVal)
    (activeCams : List String) : (String → Option JVal) × List String × Nat :=
  match msg.data with
  | some d =>
    if msg.type = "settings" then (objAssign settings d, activeCams, 0)
    else (settings, [], 0)
  | none => (settings, [], 0)

/-- The baseline settings object of the counterexample: a thickness entry
and a show_lines entry. -/
def baseSettings : String → Option JVal :=
  fun k => if k = "thickness" then some (JVal.num 2)
           else if k = "show_lines" then some (JVal.bool false) else none

/-- A pushed settings object carrying only a show_lines entry. -/
def pushedFlags : String → Option JVal :=
  fun k => if k = "show_lines" then some (JVal.bool true) else none

end FeedOverlays

open FeedOverlays

/-- After teardown a step keeps the channel torn down, never adds a pending
timer, and never grows connections-plus-pending-timers. -/
theorem chanStep_inactive (s : ChanState) (e : WsEvent) (h : s.active = false) :
    (chanStep s e).active = false ∧
    (chanStep s e).pending.length ≤ s.pending.length ∧
    (chanStep s e).openConns + (chanStep s e).pending.length
      ≤ s.openConns + s.pending.length := by
  cases e with
  | timerFire =>
    cases hp : s.pending with
    | nil => simp [chanStep, hp, h]
    | cons d rest =>
      refine ⟨by simp [chanStep, hp, h], by simp [chanStep, hp], ?_⟩
      simp [chanStep, hp]
      omega
  | wsOpen => simp [chanStep, h]
  | wsClose code =>
    by_cases h8 : code = 1008 <;> simp [chanStep, h8, h]
  | callerClose => simp [chanStep, h]

/-- chanStep_inactive extended over any event sequence. -/
theorem chanRun_inactive (s : ChanState) (es : List WsEvent) (h : s.active = false) :
    (chanRun s es).active = false ∧
    (chanRun s es).pending.length ≤ s.pending.length ∧
    (chanRun s es).openConns + (chanRun s es).pending.length
      ≤ s.openConns + s.pending.length := by
  induction es generalizing s with
  | nil => exact ⟨h, le_refl _, le_refl _⟩
  | cons e es ih =>
    have hs := chanStep_inactive s e h
    have hrest := ih (chanStep s e) hs.1
    simp only [chanRun, List.foldl_cons] at hrest ⊢
    exact ⟨hrest.1, le_trans hrest.2.1 hs.2.1, le_trans hrest.2.2 hs.2.2⟩

/-- C1: for a 4-component box, when every component is at most 1.01 any
geometry scaleBox returns is the normalized scaling (each component times the
displayed dimension); when some component exceeds 1.01 any returned geometry
is the raw-pixel scaling (displayed dimension over source dimension, per
axis). At source size 100x100 and displayed size 100x100 the raw box
[10,10,10,10] and the normalized box [0.1,0.1,0.1,0.1] both give
[10,10,10,10]. -/
theorem C1_scaleBox_mode_dichotomy :
    (∀ (x y w h : ℚ) (rest : List ℚ) (srcW srcH imgW imgH b1 b2 b3 b4 : ℚ),
      scaleBox (x :: y :: w :: h :: rest) srcW srcH imgW imgH = some (b1, b2, b3, b4) →
      ((x ≤ normBound ∧ y ≤ normBound ∧ w ≤ normBound ∧ h ≤ normBound) →
        b1 = x * imgW ∧ b2 = y * imgH ∧ b3 = w * imgW ∧ b4 = h * imgH) ∧
      (¬(x ≤ normBound ∧ y ≤ normBound ∧ w ≤ normBound ∧ h ≤ normBound) →
        b1 = x * imgW / srcW ∧ b2 = y * imgH / srcH ∧
        b3 = w * imgW / srcW ∧ b4 = h * imgH / srcH)) ∧
    scaleBox [10, 10, 10, 10] 100 100 100 100 = some (10, 10, 10, 10) ∧
    scaleBox [1/10, 1/10, 1/10, 1/10] 100 100 100 100 = some (10, 10, 10, 10) := by
  refine ⟨?_, by norm_num [scaleBox, normBound], by norm_num [scaleBox, normBound]⟩
  intro x y w h rest srcW srcH imgW imgH b1 b2 b3 b4 hres
  simp only [scaleBox] at hres
  constructor
  · intro hnorm
    rw [if_pos hnorm] at hres
    by_cases hz : w * imgW ≤ 0 ∨ h * imgH ≤ 0
    · rw [if_pos hz] at hres; exact Option.noConfusion hres
    · rw [if_neg hz] at hres
      simp only [Option.some.injEq, Prod.mk.injEq] at hres
      exact ⟨hres.1.symm, hres.2.1.symm, hres.2.2.1.symm, hres.2.2.2.symm⟩
  · intro hraw
    rw [if_neg hraw] at hres
    by_cases hsrc : srcW = 0 ∨ srcH = 0
    · rw [if_pos hsrc] at hres; exact Option.noConfusion hres
    · rw [if_neg hsrc] at hres
      by_cases hz : w * imgW / srcW ≤ 0 ∨ h * imgH / srcH ≤ 0
      · rw [if_pos hz] at hres; exact Option.noConfusion hres
      · rw [if_neg hz] at hres
        simp only [Option.some.injEq, Prod.mk.injEq] at hres
        exact ⟨hres.1.symm, hres.2.1.symm, hres.2.2.1.symm, hres.2.2.2.symm⟩

/-- C1 witness: the dichotomy instantiated at the raw-pixel box
[10,10,10,10] with all sizes 100. -/
theorem C1_scaleBox_mode_dichotomy_witness :
    (10 : ℚ) = 10 * 100 / 100 ∧ (10 : ℚ) = 10 * 100 / 100 ∧
    (10 : ℚ) = 10 * 100 / 100 ∧ (10 : ℚ) = 10 * 100 / 100 :=
  (C1_scaleBox_mode_dichotomy.1 10 10 10 10 [] 100 100 100 100 10 10 10 10
    (by norm_num [scaleBox, normBound])).2 (by norm_num [normBound])

/-- C6: with a trail ending in the points (px1,py1),(px2,py2) and a first
configured line: a line with equal x-coordinates is treated as vertical and,
with lx the line x scaled by the source width, a strict sign change of the
last two x positions around lx gives green when px2 exceeds px1 and red when
px1 exceeds px2; a non-vertical line with equal y-coordinates is treated as
horizontal with the analogous rule on y; a line with neither pair equal
gives no crossing color. -/
theorem C6_crossColor_classification
    (pre : List (ℚ × ℚ)) (px1 py1 px2 py2 : ℚ) (ln : Line) (rest : List Line)
    (srcW srcH : ℚ) :
    (ln.x1 = ln.x2 → (px1 - ln.x1 * srcW) * (px2 - ln.x1 * srcW) < 0 →
      ((px1 < px2 →
        crossColor (pre ++ [(px1, py1), (px2, py2)]) (ln :: rest) srcW srcH
          = some "green") ∧
       (px2 < px1 →
        crossColor (pre ++ [(px1, py1), (px2, py2)]) (ln :: rest) srcW srcH
          = some "red"))) ∧
    (ln.x1 ≠ ln.x2 → ln.y1 = ln.y2 →
      (py1 - ln.y1 * srcH) * (py2 - ln.y1 * srcH) < 0 →
      ((py1 < py2 →
        crossColor (pre ++ [(px1, py1), (px2, py2)]) (ln :: rest) srcW srcH
          = some "green") ∧
       (py2 < py1 →
        crossColor (pre ++ [(px1, py1), (px2, py2)]) (ln :: rest) srcW srcH
          = some "red"))) ∧
    (ln.x1 ≠ ln.x2 → ln.y1 ≠ ln.y2 →
      crossColor (pre ++ [(px1, py1), (px2, py2)]) (ln :: rest) srcW srcH
        = none) := by
  have hrev : (pre ++ [(px1, py1), (px2, py2)]).reverse
      = (px2, py2) :: (px1, py1) :: pre.reverse := by simp
  refine ⟨?_, ?_, ?_⟩
  · intro hvert hsign
    constructor
    · intro hlt
      simp only [crossColor, hrev]
      rw [if_pos hvert, if_pos hsign, if_pos hlt]
    · intro hgt
      simp only [crossColor, hrev]
      rw [if_pos hvert, if_pos hsign, if_neg (not_lt.mpr (le_of_lt hgt))]
  · intro hnv hhor hsign
    constructor
    · intro hlt
      simp only [crossColor, hrev]
      rw [if_neg hnv, if_pos hhor, if_pos hsign, if_pos hlt]
    · intro hgt
      simp only [crossColor, hrev]
      rw [if_neg hnv, if_pos hhor, if_pos hsign, if_neg (not_lt.mpr (le_of_lt hgt))]
  · intro hnv hnh
    simp only [crossColor, hrev]
    rw [if_neg hnv, if_neg hnh]

/-- C6 witness: a vertical line at normalized x = 1/2 over a 100-wide source
(lx = 50); the trail step 40 to 60 crosses left-to-right and is green, the
step 60 to 40 crosses right-to-left and is red. -/
theorem C6_crossColor_classification_witness :
    crossColor [(40, 0), (60, 0)] [⟨1/2, 0, 1/2, 1⟩] 100 100 = some "green" ∧
    crossColor [(60, 0), (40, 0)] [⟨1/2, 0, 1/2, 1⟩] 100 100 = some "red" :=
  ⟨((C6_crossColor_classification [] 40 0 60 0 ⟨1/2, 0, 1/2, 1⟩ [] 100 100).1
      rfl (by norm_num)).1 (by norm_num),
   ((C6_crossColor_classification [] 60 0 40 0 ⟨1/2, 0, 1/2, 1⟩ [] 100 100).1
      rfl (by norm_num)).2 (by norm_num)⟩

/-- C9: a box whose scaled geometry has a non-finite component (modelled by
a zero source dimension on the raw path) or a non-positive width or height
makes scaleBox return none, makes the track loop emit zero draw calls for
that track, and leaves the draw calls of the remaining tracks of the same
message unchanged. -/
theorem C9_invalid_box_skipped
    (x y w h : ℚ) (rest : List ℚ) (srcW srcH imgW imgH offX offY : ℚ)
    (s : Settings) (fl : OverlayFlags) (lines : List Line) (t : Track)
    (ts1 ts2 : List Track)
    (hbox : t.box = x :: y :: w :: h :: rest)
    (hbad : ((x ≤ normBound ∧ y ≤ normBound ∧ w ≤ normBound ∧ h ≤ normBound) ∧
               (w * imgW ≤ 0 ∨ h * imgH ≤ 0)) ∨
            (¬(x ≤ normBound ∧ y ≤ normBound ∧ w ≤ normBound ∧ h ≤ normBound) ∧
               (srcW = 0 ∨ srcH = 0 ∨ w * imgW / srcW ≤ 0 ∨ h * imgH / srcH ≤ 0))) :
    scaleBox t.box srcW srcH imgW imgH = none ∧
    renderTrack s lines srcW srcH imgW imgH offX offY t = [] ∧
    renderTracks s fl lines srcW srcH imgW imgH offX offY (ts1 ++ t :: ts2)
      = renderTracks s fl lines srcW srcH imgW imgH offX offY ts1
        ++ renderTracks s fl lines srcW srcH imgW imgH offX offY ts2 := by
  have hnone : scaleBox t.box srcW srcH imgW imgH = none := by
    rw [hbox]
    simp only [scaleBox]
    rcases hbad with ⟨hn, hz⟩ | ⟨hn, hsub⟩
    · rw [if_pos hn, if_pos hz]
    · rw [if_neg hn]
      rcases hsub with hz | hz | hz | hz
      · rw [if_pos (Or.inl hz)]
      · rw [if_pos (Or.inr hz)]
      · by_cases hsrc : srcW = 0 ∨ srcH = 0
        · rw [if_pos hsrc]
        · rw [if_neg hsrc, if_pos (Or.inl hz)]
      · by_cases hsrc : srcW = 0 ∨ srcH = 0
        · rw [if_pos hsrc]
        · rw [if_neg hsrc, if_pos (Or.inr hz)]
  have hrt : renderTrack s lines srcW srcH imgW imgH offX offY t = [] := by
    simp [renderTrack, hnone]
  refine ⟨hnone, hrt, ?_⟩
  simp only [renderTracks, List.filter_append, List.filter_cons, List.flatMap_append]
  by_cases hp : trackVisible fl t
  · simp [hp, hrt]
  · simp [hp]

/-- C9 witness: the normalized box [0,0,0,0] has zero scaled width, yields
no geometry and no draw calls, and drops out of the surrounding loop. -/
theorem C9_invalid_box_skipped_witness :
    scaleBox [0, 0, 0, 0] 100 100 200 200 = none ∧
    renderTrack ⟨false, false, false, false, false, false, 2⟩ []
      100 100 200 200 0 0 ⟨"1", none, none, [0, 0, 0, 0], none, none⟩ = [] ∧
    renderTracks ⟨false, false, false, false, false, false, 2⟩
      ⟨false, false, false, false, false, false, false, false⟩ []
      100 100 200 200 0 0
      ([] ++ ⟨"1", none, none, [0, 0, 0, 0], none, none⟩ :: [])
      = renderTracks ⟨false, false, false, false, false, false, 2⟩
          ⟨false, false, false, false, false, false, false, false⟩ []
          100 100 200 200 0 0 []
        ++ renderTracks ⟨false, false, false, false, false, false, 2⟩
            ⟨false, false, false, false, false, false, false, false⟩ []
            100 100 200 200 0 0 [] :=
  C9_invalid_box_skipped 0 0 0 0 [] 100 100 200 200 0 0
    ⟨false, false, false, false, false, false, 2⟩
    ⟨false, false, false, false, false, false, false, false⟩ []
    ⟨"1", none, none, [0, 0, 0, 0], none, none⟩ [] [] rfl
    (Or.inl ⟨by norm_num [normBound], Or.inl (by norm_num)⟩)

/-- C10: a track whose label is not person, vehicle or face (including a
missing label) always passes the per-class category filter, whatever the
values of show_person, show_vehicle and show_faces, and its draw calls in
the track loop are exactly those of renderTrack. -/
theorem C10_other_labels_always_pass
    (t : Track)
    (hp : t.label ≠ some "person") (hv : t.label ≠ some "vehicle")
    (hf : t.label ≠ some "face") :
    ∀ (fl : OverlayFlags) (s : Settings) (lines : List Line)
      (srcW srcH imgW imgH offX offY : ℚ) (ts : List Track),
    trackVisible fl t = true ∧
    (t ∈ ts → t ∈ ts.filter (trackVisible fl)) ∧
    renderTracks s fl lines srcW srcH imgW imgH offX offY [t]
      = renderTrack s lines srcW srcH imgW imgH offX offY t := by
  intro fl s lines srcW srcH imgW imgH offX offY ts
  have hvis : trackVisible fl t = true := by
    simp only [trackVisible]
    rw [if_neg hp, if_neg hv, if_neg hf]
  refine ⟨hvis, ?_, ?_⟩
  · intro hmem
    exact List.mem_filter.mpr ⟨hmem, hvis⟩
  · simp [renderTracks, List.filter_cons, hvis]

/-- Folding enqueue over a burst: the messages are appended to the queue,
the pending flag is set when any message arrived, and at most one new
callback is requested, only when none was pending. -/
theorem enqueueAll_spec (msgs : List Msg) (s : SchedState) :
    enqueueAll msgs s
      = ⟨s.queue ++ msgs,
         s.rafPending || !msgs.isEmpty,
         s.scheduled + (if s.rafPending || msgs.isEmpty then 0 else 1),
         s.info⟩ := by
  induction msgs generalizing s with
  | nil => simp [enqueueAll]
  | cons m ms ih =>
    simp only [enqueueAll, List.foldl_cons]
    have h2 := ih (enqueue m s)
    simp only [enqueueAll] at h2
    rw [h2]
    cases hb : s.rafPending <;> simp [enqueue, hb, List.append_assoc]

/-- C2: from an idle scheduler (empty queue, no pending frame), any burst of
messages followed by the fired callback applies only the last message to the
entry state, clears the queue, paints exactly when the entry still has a
context and a canvas (and silently skips painting otherwise), and the whole
burst requested exactly one render callback; any burst whatsoever requests
at most one. -/
theorem C2_render_coalescing
    (s : SchedState) (msgs : List Msg) (m : Msg)
    (hq : s.queue = []) (hr : s.rafPending = false) :
    (process (enqueueAll (msgs ++ [m]) s)).1.info = applyMsg m s.info ∧
    (process (enqueueAll (msgs ++ [m]) s)).1.queue = [] ∧
    (process (enqueueAll (msgs ++ [m]) s)).2 = (s.info.ctx && s.info.canvas) ∧
    (enqueueAll (msgs ++ [m]) s).scheduled = s.scheduled + 1 ∧
    (∀ msgs2 : List Msg, (enqueueAll msgs2 s).scheduled ≤ s.scheduled + 1) := by
  rw [enqueueAll_spec]
  have hctx : (applyMsg m s.info).ctx = s.info.ctx := by simp [applyMsg]
  have hcan : (applyMsg m s.info).canvas = s.info.canvas := by simp [applyMsg]
  refine ⟨?_, ?_, ?_, ?_, ?_⟩
  · simp [process, hq]
  · simp [process, hq]
  · simp [process, hq, hctx, hcan]
  · simp [hq, hr]
  · intro msgs2
    rw [enqueueAll_spec]
    simp only [hr, Bool.false_or]
    split <;> omega

/-- C2 witness: a two-message burst into an idle scheduler with a live
canvas; the fired callback keeps only the second message. -/
theorem C2_render_coalescing_witness :
    (process (enqueueAll
        ([⟨some ⟨100, 100⟩, none, none, none, none, none, none⟩]
          ++ [⟨none, some [], none, none, none, none, none⟩])
        ⟨[], false, 0, ⟨none, [], [], [], ⟨none, none, none⟩, none, none, true, true⟩⟩)).1.info
      = applyMsg ⟨none, some [], none, none, none, none, none⟩
          ⟨none, [], [], [], ⟨none, none, none⟩, none, none, true, true⟩ :=
  (C2_render_coalescing
    ⟨[], false, 0, ⟨none, [], [], [], ⟨none, none, none⟩, none, none, true, true⟩⟩
    [⟨some ⟨100, 100⟩, none, none, none, none, none, none⟩]
    ⟨none, some [], none, none, none, none, none⟩ rfl rfl).1

/-- C10 witness: an unlabeled track passes the filter with all three
per-class flags false and contributes its box draw call. -/
theorem C10_other_labels_always_pass_witness :
    trackVisible ⟨false, false, false, false, false, false, false, false⟩
      ⟨"7", none, none, [0, 0, 1/2, 1/2], none, none⟩ = true ∧
    (⟨"7", none, none, [0, 0, 1/2, 1/2], none, none⟩
        ∈ ([⟨"7", none, none, [0, 0, 1/2, 1/2], none, none⟩] : List Track) →
      (⟨"7", none, none, [0, 0, 1/2, 1/2], none, none⟩ : Track)
        ∈ ([⟨"7", none, none, [0, 0, 1/2, 1/2], none, none⟩] : List Track).filter
            (trackVisible ⟨false, false, false, false, false, false, false, false⟩)) ∧
    renderTracks ⟨false, false, false, false, false, false, 2⟩
      ⟨false, false, false, false, false, false, false, false⟩ []
      100 100 200 200 0 0 [⟨"7", none, none, [0, 0, 1/2, 1/2], none, none⟩]
      = renderTrack ⟨false, false, false, false, false, false, 2⟩ []
          100 100 200 200 0 0 ⟨"7", none, none, [0, 0, 1/2, 1/2], none, none⟩ :=
  C10_other_labels_always_pass ⟨"7", none, none, [0, 0, 1/2, 1/2], none, none⟩
    (by simp) (by simp) (by simp)
    ⟨false, false, false, false, false, false, false, false⟩
    ⟨false, false, false, false, false, false, 2⟩ [] 100 100 200 200 0 0
    [⟨"7", none, none, [0, 0, 1/2, 1/2], none, none⟩]

/-- C3 counterexample: after a transient close a reconnect timer is
pending; the caller then invokes close, yet when the timer fires a second
connection is created — a new channel connection is opened after close
returns, so close does not cancel an already-pending reconnect timer. -/
theorem C3_close_cex :
    (chanRun chanInit [WsEvent.wsClose 1000, WsEvent.callerClose]).openConns = 1 ∧
    (chanRun chanInit
      [WsEvent.wsClose 1000, WsEvent.callerClose, WsEvent.timerFire]).openConns = 2 := by
  constructor <;> rfl

/-- C3 amended: close is idempotent and, once invoked, no further reconnect
timer is ever scheduled (the number of pending timers never grows) and at
most the timers already pending at the call can still fire, each opening at
most one further connection; a reconnect timer pending at the moment of the
call is not canceled. -/
theorem C3_close_terminal_amended (s : ChanState) (es : List WsEvent) :
    chanStep (chanStep s WsEvent.callerClose) WsEvent.callerClose
      = chanStep s WsEvent.callerClose ∧
    (chanRun (chanStep s WsEvent.callerClose) es).pending.length
      ≤ s.pending.length ∧
    (chanRun (chanStep s WsEvent.callerClose) es).openConns
      ≤ s.openConns + s.pending.length := by
  have hclosed : (chanStep s WsEvent.callerClose).active = false := by simp [chanStep]
  have hpend : (chanStep s WsEvent.callerClose).pending = s.pending := by simp [chanStep]
  have hconn : (chanStep s WsEvent.callerClose).openConns = s.openConns := by
    simp [chanStep]
  have hrun := chanRun_inactive (chanStep s WsEvent.callerClose) es hclosed
  refine ⟨by simp [chanStep], ?_, ?_⟩
  · rw [hpend] at hrun
    exact hrun.2.1
  · rw [hpend, hconn] at hrun
    omega

/-- C4 counterexample: six consecutive transient closes starting from the
base delay surface the reconnect-exhausted notice twice (on the fifth and
sixth closes), not exactly once. -/
theorem C4_notice_once_cex :
    (chanRun chanInit (List.replicate 6 (WsEvent.wsClose 1000))).toasts.count
      "Reconnect failed" = 2 := by
  rfl

/-- C4 amended: every successful open resets the delay to 1000; every close
while not torn down schedules a reconnect after the current delay and then
doubles the delay capped at 10000; the reconnect-exhausted notice is
surfaced on every such close whose delay has already reached the cap — so
it repeats on each capped close rather than appearing only once. -/
theorem C4_backoff_policy_amended (s : ChanState) (code : Nat) :
    (chanStep s WsEvent.wsOpen).delay = 1000 ∧
    (s.active = true →
      (chanStep s (WsEvent.wsClose code)).pending = s.pending ++ [s.delay] ∧
      (chanStep s (WsEvent.wsClose code)).delay = min (s.delay * 2) 10000 ∧
      (10000 ≤ s.delay →
        (chanStep s (WsEvent.wsClose code)).toasts.count "Reconnect failed"
          = s.toasts.count "Reconnect failed" + 1) ∧
      (s.delay < 10000 →
        (chanStep s (WsEvent.wsClose code)).toasts.count "Reconnect failed"
          = s.toasts.count "Reconnect failed")) := by
  refine ⟨by simp [chanStep], fun ha => ?_⟩
  by_cases h8 : code = 1008 <;>
    by_cases hd : 10000 ≤ s.delay <;>
      refine ⟨?_, ?_, fun h1 => ?_, fun h2 => ?_⟩ <;>
        simp [chanStep, h8, ha, hd, ge_iff_le, List.count_append] <;>
          omega

/-- C4 witness: the amended policy at the initial state under a transient
close with code 1006. -/
theorem C4_backoff_policy_amended_witness :
    (chanStep chanInit (WsEvent.wsClose 1006)).pending = [1000] ∧
    (chanStep chanInit (WsEvent.wsClose 1006)).delay = 2000 ∧
    (chanStep chanInit (WsEvent.wsClose 1006)).toasts.count "Reconnect failed" = 0 := by
  have h := (C4_backoff_policy_amended chanInit 1006).2 rfl
  refine ⟨by rw [h.1]; rfl, by rw [h.2.1]; rfl, ?_⟩
  have h0 := h.2.2.2 (by norm_num [chanInit])
  rw [h0]
  rfl

/-- C5: a close with code 1008 on a channel that has not been torn down
surfaces the authentication-failed toast, still schedules a reconnect after
the current delay, and the firing of that pending timer creates a new
channel connection. -/
theorem C5_auth_close_reconnects (s : ChanState) (ha : s.active = true) :
    (chanStep s (WsEvent.wsClose 1008)).toasts.count "Auth failed"
      = s.toasts.count "Auth failed" + 1 ∧
    (chanStep s (WsEvent.wsClose 1008)).pending = s.pending ++ [s.delay] ∧
    (chanRun s [WsEvent.wsClose 1008, WsEvent.timerFire]).openConns
      = s.openConns + 1 := by
  have hcount : (chanStep s (WsEvent.wsClose 1008)).toasts.count "Auth failed"
      = s.toasts.count "Auth failed" + 1 := by
    by_cases hd : 10000 ≤ s.delay <;>
      simp [chanStep, ha, hd, ge_iff_le, List.count_append]
  have hpend : (chanStep s (WsEvent.wsClose 1008)).pending = s.pending ++ [s.delay] := by
    by_cases hd : 10000 ≤ s.delay <;> simp [chanStep, ha, hd, ge_iff_le]
  have hconn : (chanStep s (WsEvent.wsClose 1008)).openConns = s.openConns := by
    by_cases hd : 10000 ≤ s.delay <;> simp [chanStep, ha, hd, ge_iff_le]
  refine ⟨hcount, hpend, ?_⟩
  have hrun : chanRun s [WsEvent.wsClose 1008, WsEvent.timerFire]
      = chanStep (chanStep s (WsEvent.wsClose 1008)) WsEvent.timerFire := rfl
  rw [hrun]
  generalize chanStep s (WsEvent.wsClose 1008) = s1 at hpend hconn ⊢
  cases hp : s1.pending with
  | nil =>
    rw [hp] at hpend
    simp at hpend
  | cons d rest =>
    simp [chanStep, hp, hconn]

/-- C5 witness: the authorization-failure close at the initial state. -/
theorem C5_auth_close_reconnects_witness :
    (chanStep chanInit (WsEvent.wsClose 1008)).toasts.count "Auth failed" = 1 ∧
    (chanStep chanInit (WsEvent.wsClose 1008)).pending = [1000] ∧
    (chanRun chanInit [WsEvent.wsClose 1008, WsEvent.timerFire]).openConns = 2 := by
  have h := C5_auth_close_reconnects chanInit rfl
  refine ⟨by rw [h.1]; rfl, by rw [h.2.1]; rfl, by rw [h.2.2]; rfl⟩

/-- C7: start on an active entry changes nothing (no second channel), stop
on an inactive entry changes nothing, the one-channel-per-camera invariant
is preserved by both operations and bounds the open channels by one, and
stop on an active entry closes the channel, clears tracks, lines, ppe and
counts, removes the canvas and detaches the resize listener. -/
theorem C7_entry_lifecycle :
    (∀ (e : Entry) (fk : Bool), e.active = true → entryStart fk e = e) ∧
    (∀ e : Entry, e.active = false → entryStop e = e) ∧
    (∀ (e : Entry) (fk : Bool), entryInv e →
      entryInv (entryStart fk e) ∧ entryInv (entryStop e)) ∧
    (∀ e : Entry, entryInv e → e.channels ≤ 1) ∧
    (∀ e : Entry, e.active = true →
      (entryStop e).active = false ∧
      (entryStop e).channels = e.channels - 1 ∧
      (entryStop e).tracks = [] ∧ (entryStop e).lines = [] ∧
      (entryStop e).ppe = [] ∧ (entryStop e).counts = ⟨none, none, none⟩ ∧
      (entryStop e).hasCanvas = false ∧ (entryStop e).resizeListener = false) := by
  refine ⟨?_, ?_, ?_, ?_, ?_⟩
  · intro e fk h
    simp [entryStart, h]
  · intro e h
    simp [entryStop, h]
  · intro e fk hinv
    constructor
    · cases ha : e.active with
      | true => simp [entryStart, ha, hinv]
      | false =>
        rw [entryInv, ha] at hinv
        cases ht : e.token with
        | true => simp [entryStart, entryInv, ha, ht, hinv]
        | false =>
          cases fk <;> simp [entryStart, entryInv, ha, ht, hinv]
    · cases ha : e.active with
      | true =>
        rw [entryInv, ha] at hinv
        simp [entryStop, entryInv, ha, hinv]
      | false =>
        rw [entryInv, ha] at hinv
        simp [entryStop, entryInv, ha, hinv]
  · intro e hinv
    rw [entryInv] at hinv
    cases ha : e.active <;> rw [ha] at hinv <;> simp at hinv <;> omega
  · intro e h
    simp [entryStop, h]

/-- C7 witness: the invariant-preservation conjunct applied to a concrete
active entry holding one channel. -/
theorem C7_entry_lifecycle_witness :
    entryInv (entryStart true
      ⟨true, true, true, true, 1, [], [], [], ⟨none, none, none⟩⟩) ∧
    entryInv (entryStop
      ⟨true, true, true, true, 1, [], [], [], ⟨none, none, none⟩⟩) :=
  C7_entry_lifecycle.2.2.1
    ⟨true, true, true, true, 1, [], [], [], ⟨none, none, none⟩⟩ true rfl

/-- C8 counterexample: a settings push whose data lacks the thickness key
leaves the old thickness in the shared settings object, so the resulting
baseline is not equal to the pushed object — the push is a per-key merge,
not a full overwrite. -/
theorem C8_full_overwrite_cex :
    (onSettingsPush ⟨"settings", some pushedFlags⟩ baseSettings ["cam1"]).1
      ≠ pushedFlags := by
  intro h
  have hthick := congrFun h "thickness"
  simp [onSettingsPush, objAssign, baseSettings, pushedFlags] at hthick

/-- C8 amended: a settings push of type "settings" with data merges the
pushed object onto the shared baseline with per-key overwrite — every key
of the pushed data takes the pushed value and every other key keeps its
previous baseline value — and every camera with an overlay canvas is
re-rendered from its cached entry state with zero new data requests. -/
theorem C8_settings_push_merge_amended
    (st d : String → Option JVal) (cams : List String) (ty : String)
    (hty : ty = "settings") :
    (∀ k v, d k = some v → (onSettingsPush ⟨ty, some d⟩ st cams).1 k = some v) ∧
    (∀ k, d k = none → (onSettingsPush ⟨ty, some d⟩ st cams).1 k = st k) ∧
    (onSettingsPush ⟨ty, some d⟩ st cams).2.1 = cams ∧
    (onSettingsPush ⟨ty, some d⟩ st cams).2.2 = 0 := by
  subst hty
  refine ⟨?_, ?_, rfl, rfl⟩
  · intro k v hk
    simp [onSettingsPush, objAssign, hk]
  · intro k hk
    simp [onSettingsPush, objAssign, hk]

/-- C8 witness: the amended merge applied to the concrete baseline and
push: the pushed show_lines value wins, the unpushed thickness survives,
the one active camera is re-rendered, no request is made. -/
theorem C8_settings_push_merge_amended_witness :
    (onSettingsPush ⟨"settings", some pushedFlags⟩ baseSettings ["cam1"]).1
      "show_lines" = some (JVal.bool true) ∧
    (onSettingsPush ⟨"settings", some pushedFlags⟩ baseSettings ["cam1"]).1
      "thickness" = baseSettings "thickness" ∧
    (onSettingsPush ⟨"settings", some pushedFlags⟩ baseSettings ["cam1"]).2.1
      = ["cam1"] ∧
    (onSettingsPush ⟨"settings", some pushedFlags⟩ baseSettings ["cam1"]).2.2 = 0 := by
  have h := C8_settings_push_merge_amended baseSettings pushedFlags ["cam1"] "settings" rfl
  exact ⟨h.1 "show_lines" (JVal.bool true) (by simp [pushedFlags]),
    h.2.1 "thickness" (by simp [pushedFlags]), h.2.2.1, h.2.2.2⟩
